import Mathlib

/-!
Shallow embedding of `src/mandelbrot.cpp` (Mandelbrot zoom renderer).

Real-valued quantities (`long double` in the source) are modelled as
rationals `ℚ`, so all arithmetic facts below are exact statements about
the real-number algorithm the source implements.  Machine iteration
counts (`uint64_t`) are modelled as `ℕ`; `Uint8` color components carry
an explicit `% 256` at each write.
-/

namespace Mandelbrot

/-- Constants from the source: `const int MAX_ITER = 512`. -/
def MAX_ITER : ℕ := 512

/-- `const int THREADS = 4`: number of worker slots. -/
def THREADS : ℕ := 4

/-- `const int FRAMES = 2000`: frames rendered before quitting. -/
def FRAMES : ℕ := 2000

/-- The initial global bounds `XMIN = -2.5`. -/
def XMIN : ℚ := -5/2

/-- The initial global bounds `XMAX = 1.0`. -/
def XMAX : ℚ := 1

/-- The initial global bounds `YMIN = -1.0`. -/
def YMIN : ℚ := -1

/-- The initial global bounds `YMAX = 1.0`. -/
def YMAX : ℚ := 1

/-- A rectangular region of the complex plane: the four bounds held in
the `static` locals of `setScale` and copied into each `rendThrData`. -/
structure Bounds where
  xmin : ℚ
  xmax : ℚ
  ymin : ℚ
  ymax : ℚ
deriving DecidableEq

/-- The starting bounds of the progression (defaults: center (-0.75, 0),
diameters 3.5 and 2, which give exactly `XMIN, XMAX, YMIN, YMAX`). -/
def initBounds : Bounds := ⟨XMIN, XMAX, YMIN, YMAX⟩

/-- Validity invariant asserted at startup: `assert(XMIN < XMAX)` and
`assert(YMIN < YMAX)`. -/
def valid (b : Bounds) : Prop := b.xmin < b.xmax ∧ b.ymin < b.ymax

instance (b : Bounds) : Decidable (valid b) := by
  unfold valid; infer_instance

/-- The bounds update performed by one call of `setScale`:
`xsca = (dx*zoom)/2.0; ysca = (dy*zoom)/2.0;
 xmin += xsca; xmax -= xsca; ymin += ysca; ymax -= ysca;`
where `zoom` is the stored zoom factor of the progression
(the `static long double zoom` local, initialized to `FLAGS_ZOOM / 2.0`). -/
def setScale (zoom : ℚ) (b : Bounds) : Bounds :=
  let xsca : ℚ := (b.xmax - b.xmin) * zoom / 2
  let ysca : ℚ := (b.ymax - b.ymin) * zoom / 2
  ⟨b.xmin + xsca, b.xmax - xsca, b.ymin + ysca, b.ymax - ysca⟩

/-- The progression sequence: `boundsSeq z b0 n` is the stored bounds
after `n` calls to `setScale` starting from `b0` (so index `n` is the
snapshot written to a slot by the `n`-th call, `n ≥ 1`). -/
def boundsSeq (zoom : ℚ) (b0 : Bounds) : ℕ → Bounds
  | 0 => b0
  | n + 1 => setScale zoom (boundsSeq zoom b0 n)

/-- Strict containment of one bounds rectangle in another, axis by axis. -/
def inside (inner outer : Bounds) : Prop :=
  outer.xmin < inner.xmin ∧ inner.xmax < outer.xmax ∧
  outer.ymin < inner.ymin ∧ inner.ymax < outer.ymax

instance (inner outer : Bounds) : Decidable (inside inner outer) := by
  unfold inside; infer_instance

/-- The `map` helper:
`(x - in_min) * (out_max - out_min) / (in_max - in_min) + out_min`. -/
def map (x in_min in_max out_min out_max : ℚ) : ℚ :=
  (x - in_min) * (out_max - out_min) / (in_max - in_min) + out_min

/-- The x-coordinate computed by `renderThread` for pixel column `px`:
`map(px, 0, SCR_WDTH, d->xmin, d->xmax)`. -/
def pixelToX (W : ℕ) (xmin xmax : ℚ) (px : ℕ) : ℚ :=
  map px 0 W xmin xmax

/-- The y-coordinate computed by `renderThread` for pixel row `py`:
`map(py, 0, SCR_HGHT, d->ymin, d->ymax)`. -/
def pixelToY (H : ℕ) (ymin ymax : ℚ) (py : ℕ) : ℚ :=
  map py 0 H ymin ymax

/-- The `while` loop of `mandelbrot`, with fuel.  State: current iterate
`(x, y)` and counter `itr`; the loop body computes
`xtmp = x*x - y*y + x0`, `ytmp = 2*x*y + y0`, short-circuits to
`MAX_ITER` when `(x, y) = (xtmp, ytmp)`, and otherwise steps.  Fuel
`MAX_ITER - itr` always suffices, so `mandelbrot` below runs it with
fuel `MAX_ITER` from `itr = 0`. -/
def mandelLoop (x0 y0 : ℚ) : ℕ → ℚ → ℚ → ℕ → ℕ
  | 0, _, _, itr => itr
  | fuel + 1, x, y, itr =>
    if x * x + y * y < 4 ∧ itr < MAX_ITER then
      if x = x * x - y * y + x0 ∧ y = 2 * x * y + y0 then MAX_ITER
      else mandelLoop x0 y0 fuel (x * x - y * y + x0) (2 * x * y + y0) (itr + 1)
    else itr

/-- `uint64_t mandelbrot(long double x0, long double y0)`: escape-time
iteration count for the point `(x0, y0)`. -/
def mandelbrot (x0 y0 : ℚ) : ℕ :=
  mandelLoop x0 y0 MAX_ITER 0 0 0

/-- The `pixel` struct: four `Uint8` components, default-constructed to
`(0, 0, 0, 255)`.  Components are naturals kept below 256 by an explicit
`% 256` at every write. -/
structure pixel where
  r : ℕ
  g : ℕ
  b : ℕ
  alpha : ℕ
deriving DecidableEq

/-- The `pixel()` default constructor: `r = g = b = 0, alpha = 255`. -/
def defaultPixel : pixel := ⟨0, 0, 0, 255⟩

/-- One assignment of the `generateColorTable` loop body at index `i`:
`colorTable[i].r = i + 32 % i; .g = i + 64 % i; .b = i + 96;`
(C precedence: `%` binds tighter than `+`; `Uint8` stores mod 256;
`alpha` keeps its constructed value 255). -/
def writeEntry (t : ℕ → pixel) (i : ℕ) : ℕ → pixel :=
  fun j => if j = i then
    ⟨(i + 32 % i) % 256, (i + 64 % i) % 256, (i + 96) % 256, 255⟩
  else t j

/-- The `for(int i = 1; i < MAX_ITER; i++)` loop of `generateColorTable`,
with fuel: runs the body at indices `i, i+1, ...` while `i < MAX_ITER`. -/
def genFrom : ℕ → ℕ → (ℕ → pixel) → (ℕ → pixel)
  | 0, _, t => t
  | fuel + 1, i, t =>
    if i < MAX_ITER then genFrom fuel (i + 1) (writeEntry t i) else t

/-- `colorTable` after `generateColorTable()` ran: all entries start as
default-constructed pixels, then the loop writes indices 1 to
`MAX_ITER - 1`. -/
def generateColorTable : ℕ → pixel :=
  genFrom MAX_ITER 1 (fun _ => defaultPixel)

/-- The color looked up by the render loop for a stored iteration count
`c`: `colorTable[data[i%THREADS](x, y) % MAX_ITER]`. -/
def displayColor (c : ℕ) : pixel :=
  generateColorTable (c % MAX_ITER)

/-- Pipeline bookkeeping state of `main`: for each slot `s < THREADS`,
`slot s` is the `setScale` call number whose snapshot the slot's
`rendThrData` currently holds, and `count` is the total number of
`setScale` calls so far (the `static uint64_t count`). -/
structure PipeState where
  slot : ℕ → ℕ
  count : ℕ

/-- State after the startup loop: slot `i` was issued by the `(i+1)`-th
`setScale` call (`for(i = 0; i < THREADS; i++){ setScale(&data[i]); ... }`),
and `THREADS` calls have been made. -/
def initState : PipeState :=
  ⟨fun s => s + 1, THREADS⟩

/-- One iteration of the frame loop for frame `k`: after displaying slot
`k % THREADS`, `setScale(&data[i%THREADS])` re-issues that slot with the
next call's snapshot. -/
def stepFrame (k : ℕ) (st : PipeState) : PipeState :=
  ⟨fun s => if s = k % THREADS then st.count + 1 else st.slot s, st.count + 1⟩

/-- Bookkeeping state after `k` completed frame-loop iterations. -/
def stateAfter : ℕ → PipeState
  | 0 => initState
  | k + 1 => stepFrame k (stateAfter k)

/-- The `setScale` call number whose bounds frame `k` displays: frame `k`
reads slot `k % THREADS` (`data[i % THREADS]`) before that slot is
re-issued. -/
def displayedIdx (k : ℕ) : ℕ :=
  (stateAfter k).slot (k % THREADS)

/-- The bounds displayed for frame `k`, for zoom factor `z` and starting
bounds `b0`. -/
def displayedBounds (z : ℚ) (b0 : Bounds) (k : ℕ) : Bounds :=
  boundsSeq z b0 (displayedIdx k)

/-- The frame loop of `main`, abstracted over the per-frame result of
`SDL_Flip` (`present i = true` iff the flip for frame `i` succeeds).
`loopFrom present i r` runs frames `i, i+1, ...` with `r` frames left;
it returns the exit code together with the number of frames presented
(flip attempts).  On a failed flip the loop returns 1 immediately
(`if(SDL_Flip(screen) == -1){ ... return 1; }`); when all frames are
done, `main` falls through and returns 0. -/
def loopFrom (present : ℕ → Bool) : ℕ → ℕ → ℕ × ℕ
  | i, 0 => (0, i)
  | i, r + 1 => if present i then loopFrom present (i + 1) r else (1, i + 1)

/-- Exit code and number of flip attempts of the whole frame loop. -/
def mainRun (present : ℕ → Bool) : ℕ × ℕ :=
  loopFrom present 0 FRAMES

/-! ## Helper lemmas about `setScale` and the progression -/

lemma setScale_xmin (z : ℚ) (b : Bounds) :
    (setScale z b).xmin = b.xmin + (b.xmax - b.xmin) * z / 2 := rfl

lemma setScale_xmax (z : ℚ) (b : Bounds) :
    (setScale z b).xmax = b.xmax - (b.xmax - b.xmin) * z / 2 := rfl

lemma setScale_ymin (z : ℚ) (b : Bounds) :
    (setScale z b).ymin = b.ymin + (b.ymax - b.ymin) * z / 2 := rfl

lemma setScale_ymax (z : ℚ) (b : Bounds) :
    (setScale z b).ymax = b.ymax - (b.ymax - b.ymin) * z / 2 := rfl

lemma setScale_valid {z : ℚ} {b : Bounds} (hz0 : 0 < z) (hz1 : z < 1)
    (hv : valid b) : valid (setScale z b) := by
  obtain ⟨h1, h2⟩ := hv
  constructor
  · rw [setScale_xmin, setScale_xmax]
    nlinarith [mul_pos (show (0:ℚ) < b.xmax - b.xmin by linarith)
      (show (0:ℚ) < 1 - z by linarith)]
  · rw [setScale_ymin, setScale_ymax]
    nlinarith [mul_pos (show (0:ℚ) < b.ymax - b.ymin by linarith)
      (show (0:ℚ) < 1 - z by linarith)]

lemma setScale_inside {z : ℚ} {b : Bounds} (hz0 : 0 < z) (hz1 : z < 1)
    (hv : valid b) : inside (setScale z b) b := by
  obtain ⟨h1, h2⟩ := hv
  have hx : (0:ℚ) < (b.xmax - b.xmin) * z :=
    mul_pos (by linarith) hz0
  have hy : (0:ℚ) < (b.ymax - b.ymin) * z :=
    mul_pos (by linarith) hz0
  refine ⟨?_, ?_, ?_, ?_⟩
  · rw [setScale_xmin]; linarith
  · rw [setScale_xmax]; linarith
  · rw [setScale_ymin]; linarith
  · rw [setScale_ymax]; linarith

lemma setScale_mid_x (z : ℚ) (b : Bounds) :
    (setScale z b).xmin + (setScale z b).xmax = b.xmin + b.xmax := by
  rw [setScale_xmin, setScale_xmax]; ring

lemma setScale_mid_y (z : ℚ) (b : Bounds) :
    (setScale z b).ymin + (setScale z b).ymax = b.ymin + b.ymax := by
  rw [setScale_ymin, setScale_ymax]; ring

lemma valid_boundsSeq {z : ℚ} {b0 : Bounds} (hz0 : 0 < z) (hz1 : z < 1)
    (hv : valid b0) : ∀ n, valid (boundsSeq z b0 n)
  | 0 => hv
  | n + 1 => setScale_valid hz0 hz1 (valid_boundsSeq hz0 hz1 hv n)

/-! ## Helper lemmas about `mandelLoop` -/

lemma mandelLoop_exit (x0 y0 x y : ℚ) (fuel itr : ℕ)
    (h : ¬(x * x + y * y < 4 ∧ itr < MAX_ITER)) :
    mandelLoop x0 y0 fuel x y itr = itr := by
  cases fuel with
  | zero => rfl
  | succ f => simp only [mandelLoop, if_neg h]

lemma mandelLoop_cycle (x0 y0 x y : ℚ) (fuel itr : ℕ) (hf : 0 < fuel)
    (h : x * x + y * y < 4 ∧ itr < MAX_ITER)
    (hc : x = x * x - y * y + x0 ∧ y = 2 * x * y + y0) :
    mandelLoop x0 y0 fuel x y itr = MAX_ITER := by
  cases fuel with
  | zero => omega
  | succ f => simp only [mandelLoop, if_pos h, if_pos hc]

lemma mandelLoop_succ (x0 y0 x y : ℚ) (fuel itr : ℕ)
    (h : x * x + y * y < 4 ∧ itr < MAX_ITER)
    (hc : ¬(x = x * x - y * y + x0 ∧ y = 2 * x * y + y0)) :
    mandelLoop x0 y0 (fuel + 1) x y itr =
      mandelLoop x0 y0 fuel (x * x - y * y + x0) (2 * x * y + y0) (itr + 1) := by
  simp only [mandelLoop, if_pos h, if_neg hc]

lemma mandelLoop_le (x0 y0 : ℚ) :
    ∀ (fuel : ℕ) (x y : ℚ) (itr : ℕ), itr ≤ MAX_ITER →
      mandelLoop x0 y0 fuel x y itr ≤ MAX_ITER := by
  intro fuel
  induction fuel with
  | zero => intro x y itr h; exact h
  | succ f ih =>
    intro x y itr h
    by_cases hcond : x * x + y * y < 4 ∧ itr < MAX_ITER
    · by_cases hc : x = x * x - y * y + x0 ∧ y = 2 * x * y + y0
      · rw [mandelLoop_cycle x0 y0 x y (f + 1) itr (Nat.succ_pos f) hcond hc]
      · rw [mandelLoop_succ x0 y0 x y f itr hcond hc]
        exact ih _ _ _ hcond.2
    · rw [mandelLoop_exit x0 y0 x y (f + 1) itr hcond]; exact h

lemma mandelLoop_fuel_irrel (x0 y0 : ℚ) :
    ∀ (f g : ℕ) (x y : ℚ) (itr : ℕ),
      MAX_ITER - itr ≤ f → MAX_ITER - itr ≤ g →
      mandelLoop x0 y0 f x y itr = mandelLoop x0 y0 g x y itr := by
  intro f
  induction f with
  | zero =>
    intro g x y itr hf hg
    have hitr : ¬ itr < MAX_ITER := by omega
    have h : ¬(x * x + y * y < 4 ∧ itr < MAX_ITER) := fun h => hitr h.2
    rw [mandelLoop_exit x0 y0 x y 0 itr h, mandelLoop_exit x0 y0 x y g itr h]
  | succ f ih =>
    intro g x y itr hf hg
    by_cases hcond : x * x + y * y < 4 ∧ itr < MAX_ITER
    · cases g with
      | zero => omega
      | succ g =>
        by_cases hc : x = x * x - y * y + x0 ∧ y = 2 * x * y + y0
        · rw [mandelLoop_cycle x0 y0 x y (f + 1) itr (Nat.succ_pos f) hcond hc,
            mandelLoop_cycle x0 y0 x y (g + 1) itr (Nat.succ_pos g) hcond hc]
        · rw [mandelLoop_succ x0 y0 x y f itr hcond hc,
            mandelLoop_succ x0 y0 x y g itr hcond hc]
          exact ih g _ _ _ (by omega) (by omega)
    · rw [mandelLoop_exit x0 y0 x y (f + 1) itr hcond,
        mandelLoop_exit x0 y0 x y g itr hcond]

/-! ## Helper lemmas about the color table -/

lemma genFrom_lt (j : ℕ) :
    ∀ (fuel i : ℕ) (t : ℕ → pixel), j < i → genFrom fuel i t j = t j := by
  intro fuel
  induction fuel with
  | zero => intro i t _; rfl
  | succ f ih =>
    intro i t hj
    by_cases hi : i < MAX_ITER
    · show (if i < MAX_ITER then genFrom f (i + 1) (writeEntry t i) else t) j = t j
      rw [if_pos hi, ih (i + 1) (writeEntry t i) (by omega)]
      unfold writeEntry
      rw [if_neg (by omega)]
    · show (if i < MAX_ITER then genFrom f (i + 1) (writeEntry t i) else t) j = t j
      rw [if_neg hi]

lemma generateColorTable_zero : generateColorTable 0 = defaultPixel := by
  unfold generateColorTable
  exact genFrom_lt 0 MAX_ITER 1 (fun _ => defaultPixel) Nat.one_pos

/-! ## Helper lemmas about the pipeline bookkeeping -/

lemma stateAfter_count (k : ℕ) : (stateAfter k).count = THREADS + k := by
  induction k with
  | zero => rfl
  | succ n ih =>
    show (stepFrame n (stateAfter n)).count = THREADS + (n + 1)
    unfold stepFrame
    simp only [ih]
    omega

lemma stateAfter_slot (k : ℕ) :
    ∀ s, s < THREADS →
      (stateAfter k).slot s =
        s + 1 + THREADS * ((k + (THREADS - 1 - s)) / THREADS) := by
  induction k with
  | zero =>
    intro s hs
    show s + 1 = s + 1 + THREADS * ((0 + (THREADS - 1 - s)) / THREADS)
    simp only [THREADS] at hs ⊢
    omega
  | succ n ih =>
    intro s hs
    show (stepFrame n (stateAfter n)).slot s = _
    unfold stepFrame
    by_cases h : s = n % THREADS
    · simp only [if_pos h, stateAfter_count]
      simp only [THREADS] at h hs ⊢
      omega
    · simp only [if_neg h, ih s hs]
      simp only [THREADS] at h hs ⊢
      omega

lemma displayedIdx_eq (k : ℕ) : displayedIdx k = k + 1 := by
  unfold displayedIdx
  rw [stateAfter_slot k (k % THREADS) (Nat.mod_lt k (by simp [THREADS]))]
  simp only [THREADS]
  omega

/-! ## Helper lemmas about the frame loop -/

lemma loopFrom_all_true (present : ℕ → Bool) :
    ∀ (r i : ℕ), (∀ j, j < r → present (i + j) = true) →
      loopFrom present i r = (0, i + r) := by
  intro r
  induction r with
  | zero => intro i _; rfl
  | succ n ih =>
    intro i h
    have h0 : present i = true := by
      have := h 0 (Nat.succ_pos n); simpa using this
    show (if present i then loopFrom present (i + 1) n else (1, i + 1)) = _
    rw [if_pos h0, ih (i + 1) (fun j hj => by
      have := h (j + 1) (by omega)
      simpa [Nat.add_assoc, Nat.add_comm 1 j] using this)]
    simp [Nat.add_assoc, Nat.add_comm 1 n]

lemma loopFrom_fail (present : ℕ → Bool) :
    ∀ (k r i : ℕ), k < r → present (i + k) = false →
      (∀ j, j < k → present (i + j) = true) →
      loopFrom present i r = (1, i + k + 1) := by
  intro k
  induction k with
  | zero =>
    intro r i hr hfail _
    cases r with
    | zero => omega
    | succ n =>
      show (if present i then loopFrom present (i + 1) n else (1, i + 1)) = _
      rw [if_neg (by simpa using hfail)]
  | succ m ih =>
    intro r i hr hfail hpre
    cases r with
    | zero => omega
    | succ n =>
      have h0 : present i = true := by
        have := hpre 0 (Nat.succ_pos m); simpa using this
      show (if present i then loopFrom present (i + 1) n else (1, i + 1)) = _
      rw [if_pos h0, ih n (i + 1) (by omega)
        (by rw [show i + 1 + m = i + (m + 1) by omega]; exact hfail)
        (fun j hj => by
          rw [show i + 1 + j = i + (j + 1) by omega]
          exact hpre (j + 1) (by omega))]
      congr 1
      omega

/-! ## Claim theorems -/

/-- C1: the viewport advance operation maps bounds
`{xmin, xmax, ymin, ymax}` with zoom factor `z` to
`xmin+hx, xmax-hx, ymin+hy, ymax-hy` where `hx = (xmax-xmin)*z/2` and
`hy = (ymax-ymin)*z/2`; starting from `xmin = -2.5, xmax = 1.0` with
`z = 0.02` a single advance yields `xmin = -2.465` and `xmax = 0.965`. -/
theorem C1_advance_formula :
    (∀ (b : Bounds) (z : ℚ), setScale z b =
      ⟨b.xmin + (b.xmax - b.xmin) * z / 2, b.xmax - (b.xmax - b.xmin) * z / 2,
       b.ymin + (b.ymax - b.ymin) * z / 2, b.ymax - (b.ymax - b.ymin) * z / 2⟩) ∧
    (setScale (1/50) initBounds).xmin = -493/200 ∧
    (setScale (1/50) initBounds).xmax = 193/200 := by
  refine ⟨fun b z => rfl, ?_, ?_⟩ <;>
    norm_num [setScale, initBounds, XMIN, XMAX, YMIN, YMAX]

/-- C6: for any valid starting bounds and zoom factor `z ∈ (0,1)`, every
step of the progression is strictly contained in the previous one on
both axes, shares the same midpoints, and the bounds never invert at any
step. -/
theorem C6_progression_shrinks (b0 : Bounds) (z : ℚ) (n : ℕ)
    (hz0 : 0 < z) (hz1 : z < 1) (hv : valid b0) :
    valid (boundsSeq z b0 n) ∧ valid (boundsSeq z b0 (n + 1)) ∧
    inside (boundsSeq z b0 (n + 1)) (boundsSeq z b0 n) ∧
    (boundsSeq z b0 (n + 1)).xmin + (boundsSeq z b0 (n + 1)).xmax =
      (boundsSeq z b0 n).xmin + (boundsSeq z b0 n).xmax ∧
    (boundsSeq z b0 (n + 1)).ymin + (boundsSeq z b0 (n + 1)).ymax =
      (boundsSeq z b0 n).ymin + (boundsSeq z b0 n).ymax := by
  have hvn := valid_boundsSeq hz0 hz1 hv n
  exact ⟨hvn, setScale_valid hz0 hz1 hvn, setScale_inside hz0 hz1 hvn,
    setScale_mid_x z _, setScale_mid_y z _⟩

/-- Witness for C6 at `b0 = initBounds`, `z = 1/100`, `n = 1`. -/
theorem C6_witness :
    0 < (1/100 : ℚ) ∧ (1/100 : ℚ) < 1 ∧ valid initBounds ∧
    (valid (boundsSeq (1/100) initBounds 1) ∧
     valid (boundsSeq (1/100) initBounds 2) ∧
     inside (boundsSeq (1/100) initBounds 2) (boundsSeq (1/100) initBounds 1) ∧
     (boundsSeq (1/100) initBounds 2).xmin + (boundsSeq (1/100) initBounds 2).xmax =
       (boundsSeq (1/100) initBounds 1).xmin + (boundsSeq (1/100) initBounds 1).xmax ∧
     (boundsSeq (1/100) initBounds 2).ymin + (boundsSeq (1/100) initBounds 2).ymax =
       (boundsSeq (1/100) initBounds 1).ymin + (boundsSeq (1/100) initBounds 1).ymax) :=
  ⟨by norm_num, by norm_num, by norm_num [valid, initBounds, XMIN, XMAX, YMIN, YMAX],
    C6_progression_shrinks initBounds (1/100) 1 (by norm_num) (by norm_num)
      (by norm_num [valid, initBounds, XMIN, XMAX, YMIN, YMAX])⟩

/-- Helper: the one-step evaluation fact behind C3 — the loop starts at
`(x, y) = (0, 0)`, whose squared norm 0 is below 4, so the body always
runs at least once, and for `x0² + y0² ≥ 4` the loop stops right after
that first step with counter 1. -/
lemma mandelbrot_of_ge_four (x0 y0 : ℚ) (h : 4 ≤ x0 * x0 + y0 * y0) :
    mandelbrot x0 y0 = 1 := by
  have hne : ¬((0:ℚ) = 0 * 0 - 0 * 0 + x0 ∧ (0:ℚ) = 2 * 0 * 0 + y0) := by
    rintro ⟨hx, hy⟩
    have hx0 : x0 = 0 := by linarith
    have hy0 : y0 = 0 := by linarith
    rw [hx0, hy0] at h
    norm_num at h
  have hstart : mandelbrot x0 y0 = mandelLoop x0 y0 (511 + 1) 0 0 0 := rfl
  rw [hstart, mandelLoop_succ x0 y0 0 0 511 0 (by norm_num [MAX_ITER]) hne]
  rw [show (0:ℚ) * 0 - 0 * 0 + x0 = x0 by ring, show (2:ℚ) * 0 * 0 + y0 = y0 by ring]
  exact mandelLoop_exit x0 y0 x0 y0 511 1 (fun hcon => not_lt.mpr h hcon.1)

/-- C3 as stated is false: at `(x0, y0) = (2, 0)` we have
`x0² + y0² ≥ 4`, but the evaluator returns 1, not 0 (the loop body runs
once, since the iterate starts at `(0, 0)` whose norm is below 4). -/
theorem C3_counterexample :
    4 ≤ (2 : ℚ) * 2 + 0 * 0 ∧ mandelbrot 2 0 ≠ 0 :=
  ⟨by norm_num, by rw [mandelbrot_of_ge_four 2 0 (by norm_num)]; norm_num⟩

/-- C3 amended: for every coordinate with `x0² + y0² ≥ 4`, the evaluator
returns iteration count 1 (not 0). -/
theorem C3_escape_at_start (x0 y0 : ℚ) (h : 4 ≤ x0 * x0 + y0 * y0) :
    mandelbrot x0 y0 = 1 :=
  mandelbrot_of_ge_four x0 y0 h

/-- Witness for the amended C3 at `(x0, y0) = (2, 0)`. -/
theorem C3_witness : 4 ≤ (2 : ℚ) * 2 + 0 * 0 ∧ mandelbrot 2 0 = 1 :=
  ⟨by norm_num, C3_escape_at_start 2 0 (by norm_num)⟩

/-- C4 as stated is false: the worker maps pixel column `px` through
`map(px, 0, SCR_WDTH, xmin, xmax)` — the input range is `[0, W)`, not
`[0, W-1]` — so with `W = 800` and the initial bounds, the
maximum-corner column `W - 1 = 799` lands at `1593/1600 = 0.995625`,
not at `xmax = 1`. -/
theorem C4_counterexample :
    pixelToX 800 XMIN XMAX (800 - 1) ≠ XMAX := by
  norm_num [pixelToX, map, XMIN, XMAX]

/-- C4 amended: pixel column `px` maps to `xmin + px*(xmax-xmin)/W`; in
particular the maximum-corner column `W-1` maps to
`xmax - (xmax-xmin)/W`, strictly less than `xmax` (for `0 < W` and
non-degenerate bounds). -/
theorem C4_last_pixel_maps_inside (W : ℕ) (xmin xmax : ℚ) (px : ℕ)
    (hW : 0 < W) (hx : xmin < xmax) :
    pixelToX W xmin xmax px = xmin + px * (xmax - xmin) / W ∧
    pixelToX W xmin xmax (W - 1) = xmax - (xmax - xmin) / W ∧
    pixelToX W xmin xmax (W - 1) < xmax := by
  have hW0 : ((W : ℚ)) ≠ 0 := Nat.cast_ne_zero.mpr (by omega)
  have hWpos : (0 : ℚ) < W := by exact_mod_cast hW
  have hcast : ((W - 1 : ℕ) : ℚ) = (W : ℚ) - 1 := by
    rw [Nat.cast_sub hW]
    norm_num
  have h2 : pixelToX W xmin xmax (W - 1) = xmax - (xmax - xmin) / W := by
    unfold pixelToX map
    rw [hcast]
    field_simp
    ring
  refine ⟨?_, h2, ?_⟩
  · unfold pixelToX map
    field_simp
    ring
  · rw [h2]
    have : (0 : ℚ) < (xmax - xmin) / W := div_pos (by linarith) hWpos
    linarith

/-- Witness for the amended C4 at `W = 800`, the initial x-bounds and
`px = 799`. -/
theorem C4_witness :
    0 < (800 : ℕ) ∧ XMIN < XMAX ∧
    (pixelToX 800 XMIN XMAX 799 =
       XMIN + ((799 : ℕ) : ℚ) * (XMAX - XMIN) / ((800 : ℕ) : ℚ) ∧
     pixelToX 800 XMIN XMAX (800 - 1) = XMAX - (XMAX - XMIN) / ((800 : ℕ) : ℚ) ∧
     pixelToX 800 XMIN XMAX (800 - 1) < XMAX) :=
  ⟨by norm_num, by norm_num [XMIN, XMAX],
    C4_last_pixel_maps_inside 800 XMIN XMAX 799 (by norm_num) (by norm_num [XMIN, XMAX])⟩

/-- C8: on every frame, the corner pixel `(0, 0)` maps exactly to
`(xmin, ymin)` of that frame's displayed bounds. -/
theorem C8_corner_pixel_exact (W H : ℕ) (z : ℚ) (b0 : Bounds) (k : ℕ) :
    pixelToX W (displayedBounds z b0 k).xmin (displayedBounds z b0 k).xmax 0 =
      (displayedBounds z b0 k).xmin ∧
    pixelToY H (displayedBounds z b0 k).ymin (displayedBounds z b0 k).ymax 0 =
      (displayedBounds z b0 k).ymin := by
  constructor <;> simp [pixelToX, pixelToY, map]

/-- C2: frame `k` is read from slot `k mod THREADS`, the bounds it
displays are exactly the output of the `(k+1)`-th `setScale` call, and
consecutive displayed frames follow the progression's strictly shrinking
sequence in order, independent of which slot computed the frame. -/
theorem C2_display_order (z : ℚ) (b0 : Bounds) (k : ℕ)
    (hz0 : 0 < z) (hz1 : z < 1) (hv : valid b0) :
    displayedIdx k = k + 1 ∧
    displayedBounds z b0 k = boundsSeq z b0 (k + 1) ∧
    displayedIdx k = (stateAfter k).slot (k % THREADS) ∧
    inside (displayedBounds z b0 (k + 1)) (displayedBounds z b0 k) := by
  have h1 := displayedIdx_eq k
  have h2 := displayedIdx_eq (k + 1)
  refine ⟨h1, by unfold displayedBounds; rw [h1], rfl, ?_⟩
  unfold displayedBounds
  rw [h1, h2]
  exact setScale_inside hz0 hz1 (valid_boundsSeq hz0 hz1 hv (k + 1))

/-- Witness for C2 at `z = 1/100`, `b0 = initBounds`, `k = 0`. -/
theorem C2_witness :
    0 < (1/100 : ℚ) ∧ (1/100 : ℚ) < 1 ∧ valid initBounds ∧
    (displayedIdx 0 = 0 + 1 ∧
     displayedBounds (1/100) initBounds 0 = boundsSeq (1/100) initBounds (0 + 1) ∧
     displayedIdx 0 = (stateAfter 0).slot (0 % THREADS) ∧
     inside (displayedBounds (1/100) initBounds (0 + 1))
       (displayedBounds (1/100) initBounds 0)) :=
  ⟨by norm_num, by norm_num, by norm_num [valid, initBounds, XMIN, XMAX, YMIN, YMAX],
    C2_display_order (1/100) initBounds 0 (by norm_num) (by norm_num)
      (by norm_num [valid, initBounds, XMIN, XMAX, YMIN, YMAX])⟩

/-- C5: the evaluator returns `MAX_ITER` at `(0, 0)`; in general,
whenever the loop body computes a next iterate equal to the current one,
the loop returns `MAX_ITER` immediately, regardless of remaining fuel. -/
theorem C5_cycle_detection (x0 y0 x y : ℚ) (fuel itr : ℕ) (hf : 0 < fuel)
    (hnorm : x * x + y * y < 4) (hitr : itr < MAX_ITER)
    (hx : x = x * x - y * y + x0) (hy : y = 2 * x * y + y0) :
    mandelbrot 0 0 = MAX_ITER ∧ mandelLoop x0 y0 fuel x y itr = MAX_ITER := by
  constructor
  · have h0 : mandelbrot 0 0 = mandelLoop (0:ℚ) 0 (511 + 1) 0 0 0 := rfl
    rw [h0]
    exact mandelLoop_cycle 0 0 0 0 (511 + 1) 0 (by norm_num)
      ⟨by norm_num, by norm_num [MAX_ITER]⟩ ⟨by norm_num, by norm_num⟩
  · exact mandelLoop_cycle x0 y0 x y fuel itr hf ⟨hnorm, hitr⟩ ⟨hx, hy⟩

/-- Witness for C5: the fixed point `(0, 0)` itself, with fuel 1. -/
theorem C5_witness :
    0 < 1 ∧ (0:ℚ) * 0 + 0 * 0 < 4 ∧ 0 < MAX_ITER ∧
    ((0:ℚ) = 0 * 0 - 0 * 0 + 0 ∧ (0:ℚ) = 2 * 0 * 0 + 0) ∧
    (mandelbrot 0 0 = MAX_ITER ∧ mandelLoop 0 0 1 0 0 0 = MAX_ITER) :=
  ⟨Nat.one_pos, by norm_num, by norm_num [MAX_ITER], ⟨by norm_num, by norm_num⟩,
    C5_cycle_detection 0 0 0 0 1 0 Nat.one_pos (by norm_num)
      (by norm_num [MAX_ITER]) (by norm_num) (by norm_num)⟩

/-- C7: for every input, the evaluator returns a count in `[0, MAX_ITER]`
(the count is a natural, so the lower bound is implicit), and `MAX_ITER`
loop iterations of fuel always suffice: any fuel of at least `MAX_ITER`
produces the same result, so the loop terminates within `MAX_ITER`
iterations. -/
theorem C7_terminates_bounded (x0 y0 : ℚ) (fuel : ℕ) (hfuel : MAX_ITER ≤ fuel) :
    mandelbrot x0 y0 ≤ MAX_ITER ∧
    mandelLoop x0 y0 fuel 0 0 0 = mandelbrot x0 y0 := by
  constructor
  · exact mandelLoop_le x0 y0 MAX_ITER 0 0 0 (Nat.zero_le _)
  · exact mandelLoop_fuel_irrel x0 y0 fuel MAX_ITER 0 0 0 (by omega) (by omega)

/-- Witness for C7 at `(x0, y0) = (2, 0)` with fuel 600. -/
theorem C7_witness :
    MAX_ITER ≤ 600 ∧
    (mandelbrot 2 0 ≤ MAX_ITER ∧ mandelLoop 2 0 600 0 0 0 = mandelbrot 2 0) :=
  ⟨by norm_num [MAX_ITER], C7_terminates_bounded 2 0 600 (by norm_num [MAX_ITER])⟩

/-- C9: if every flip succeeds, the frame loop presents all `FRAMES`
frames and the process exits with code 0; if the first flip failure is
at frame `k`, the loop stops right there (`k + 1` flip attempts) and the
process exits with code 1. -/
theorem C9_exit_codes (p q : ℕ → Bool) (k : ℕ)
    (hall : ∀ j, j < FRAMES → p j = true)
    (hk : k < FRAMES) (hfail : q k = false)
    (hpre : ∀ j, j < k → q j = true) :
    mainRun p = (0, FRAMES) ∧ mainRun q = (1, k + 1) := by
  constructor
  · unfold mainRun
    have h := loopFrom_all_true p FRAMES 0 (fun j hj => by simpa using hall j hj)
    simpa using h
  · unfold mainRun
    have h := loopFrom_fail q k FRAMES 0 hk (by simpa using hfail)
      (fun j hj => by simpa using hpre j hj)
    simpa using h

/-- Witness for C9: all flips succeed, versus a first failure at
frame 3. -/
theorem C9_witness :
    (3 : ℕ) < FRAMES ∧ (3 != 3) = false ∧
    (mainRun (fun _ => true) = (0, FRAMES) ∧
     mainRun (fun j => j != 3) = (1, 3 + 1)) :=
  ⟨by norm_num [FRAMES], by decide,
    C9_exit_codes (fun _ => true) (fun j => j != 3) 3
      (fun j _ => rfl) (by norm_num [FRAMES]) (by decide)
      (fun j hj => by simp only [bne_iff_ne, ne_eq, decide_eq_true_eq]; omega)⟩

/-- C10: the color-table index for a stored count `c` is `c % MAX_ITER`,
always in `[0, MAX_ITER)`, so the lookup is in bounds; a count that
reached the cap `MAX_ITER` indexes entry 0, which the generator loop
(starting at index 1) never writes, so it keeps the default-constructed
color `(0, 0, 0, 255)` — the same entry as a count of 0. -/
theorem C10_color_lookup (c : ℕ) :
    c % MAX_ITER < MAX_ITER ∧
    displayColor MAX_ITER = pixel.mk 0 0 0 255 ∧
    displayColor MAX_ITER = displayColor 0 := by
  refine ⟨Nat.mod_lt c (by norm_num [MAX_ITER]), ?_, ?_⟩
  · show generateColorTable (MAX_ITER % MAX_ITER) = _
    rw [Nat.mod_self, generateColorTable_zero]
    rfl
  · show generateColorTable (MAX_ITER % MAX_ITER) = generateColorTable (0 % MAX_ITER)
    rw [Nat.mod_self, Nat.zero_mod]

end Mandelbrot
